import Mathlib

/-!
Verification development for the VILLA permissioned-token repository.

The repository contains a deployment script (`src/demo/deployVilla.ts`), its
tests (`src/demo/deployVilla.test.ts`), a README, and a block-explorer page
whose transaction table is sorted by `sortTransactions`.  The protocol core
(Token Ledger, Identity store, Claim Topics / Trusted Issuers registries,
Identity Registry, claim signing and verification) lives in external TREX /
OnchainID contracts that are not part of the repository's files, so it is
modelled here from the specification's words; the deployment script and
tests, which are in the repository, fix the concrete run that the model
replays.  `sortTransactions` is translated directly from the source.
-/

namespace Villa

/-! ### Symbolic cryptography

Addresses, keys, topics and claim-data bytes are abstracted as naturals.
Hashing and ECDSA signing are modelled symbolically: a digest is the
(injective) triple that is hashed, and a signature records the signing key
together with the digest it signs, so that signer recovery succeeds exactly
on the digest that was signed. -/

abbrev Address := Nat
abbrev Key := Nat
abbrev Topic := Nat
abbrev Bytes := Nat

structure Digest where
  identity : Address
  topic : Topic
  data : Bytes
deriving DecidableEq, Repr

/-- Modelled from the spec: the documented digest construction
`hash(identity, topic, data)` (spec 4.3 and 9); in the deployment script this
is the keccak256 of the ABI encoding of the identity address, the uint256
topic and the claim data bytes (src/demo/deployVilla.ts lines 214-223).  The
hash is modelled as the injective triple itself. -/
def hashClaim (identity : Address) (topic : Topic) (data : Bytes) : Digest :=
  ⟨identity, topic, data⟩

structure Sig where
  key : Key
  signed : Digest
deriving DecidableEq, Repr

/-- Modelled from the spec: signing a digest with a key (the script's
`claimIssuerSigningKey.signMessage`, src/demo/deployVilla.ts line 214). -/
def signMessage (k : Key) (d : Digest) : Sig := ⟨k, d⟩

/-- Modelled from the spec: "recover signer from `signature` over `digest`"
(spec 4.3): recovery yields the signing key exactly when the digest matches
the one that was signed, and fails otherwise (malformed signature). -/
def recoverSigner (sg : Sig) (d : Digest) : Option Key :=
  if sg.signed = d then some sg.key else none

/-! ### Claims and identities (spec 3, 4.1) -/

structure Claim where
  topic : Topic
  scheme : Nat
  issuer : Address
  signature : Sig
  data : Bytes
deriving DecidableEq, Repr

/-- Modelled from the spec: an Identity is a key set (management keys, claim
keys) with an ordered collection of Claims, retrievable by topic (spec 3,
4.1). -/
structure Identity where
  managementKeys : List Key
  claimKeys : List Key
  claims : List Claim
deriving DecidableEq, Repr

/-- First claim in a claim collection with the given topic. -/
def findClaim : List Claim → Topic → Option Claim
  | [], _ => none
  | c :: rest, t => if c.topic = t then some c else findClaim rest t

/-- Modelled from the spec: `getClaim(identity, topic) -> Claim | absent`
(spec 4.1). -/
def Identity.getClaim (idn : Identity) (t : Topic) : Option Claim :=
  findClaim idn.claims t

/-- Modelled from the spec: recording a claim on an identity, keyed by topic:
a fresh claim for a topic replaces the previous claim for that topic (the
durable record is "retrievable by topic", spec 4.1). -/
def Identity.putClaim (idn : Identity) (c : Claim) : Identity :=
  { idn with claims := idn.claims.filter (fun c0 => c0.topic != c.topic) ++ [c] }

/-- Modelled from the spec: whether `k` is an active claim key of the
identity (spec 4.3: "confirm the recovered key is an active claim key"). -/
def Identity.hasClaimKey (idn : Identity) (k : Key) : Bool :=
  idn.claimKeys.contains k

/-! ### Association-list state helpers -/

/-- Balance of a holder in an association list of balances (0 if absent). -/
def getBal : List (Address × Nat) → Address → Nat
  | [], _ => 0
  | p :: rest, a => if p.1 = a then p.2 else getBal rest a

/-- Increase a holder's balance, creating the entry when absent. -/
def addBal : List (Address × Nat) → Address → Nat → List (Address × Nat)
  | [], a, v => [(a, v)]
  | p :: rest, a, v =>
    if p.1 = a then (p.1, p.2 + v) :: rest else p :: addBal rest a v

/-- Decrease a holder's balance (truncated subtraction on the entry). -/
def subBal : List (Address × Nat) → Address → Nat → List (Address × Nat)
  | [], _, _ => []
  | p :: rest, a, v =>
    if p.1 = a then (p.1, p.2 - v) :: rest else p :: subBal rest a v

/-- Sum of all balances. -/
def sumBal : List (Address × Nat) → Nat
  | [] => 0
  | p :: rest => p.2 + sumBal rest

/-- Lookup in the identity store. -/
def lookupId : List (Address × Identity) → Address → Option Identity
  | [], _ => none
  | p :: rest, a => if p.1 = a then some p.2 else lookupId rest a

/-- Replace (first occurrence) or append an identity in the store. -/
def setId : List (Address × Identity) → Address → Identity → List (Address × Identity)
  | [], a, idn => [(a, idn)]
  | p :: rest, a, idn =>
    if p.1 = a then (a, idn) :: rest else p :: setId rest a idn

/-! ### Registries (spec 4.2) -/

/-- Modelled from the spec: idempotent add into the required-topic set
(spec 4.2: "admin-only, idempotent add"). -/
def addTopicSet (topics : List Topic) (t : Topic) : List Topic :=
  if topics.contains t then topics else topics ++ [t]

/-- Modelled from the spec: remove a topic, no-op when absent (spec 4.2). -/
def removeTopicSet (topics : List Topic) (t : Topic) : List Topic :=
  topics.filter (fun t0 => t0 != t)

/-- Modelled from the spec: `isTrustedIssuerForTopic(issuer, topic)` looks the
issuer up in the Trusted Issuers registry and checks its topic set
(spec 4.2). -/
def isTrustedIssuerForTopic : List (Address × List Topic) → Address → Topic → Bool
  | [], _, _ => false
  | p :: rest, issuer, t =>
    if p.1 = issuer then p.2.contains t else isTrustedIssuerForTopic rest issuer t

/-! ### The protocol state -/

/-- Modelled from the spec: the Token Ledger: owner, agent set, pause flag,
total supply and balances (spec 3, 4.6).  Name, symbol and decimals are
deployment constants with no bearing on any verified property and are
omitted. -/
structure Token where
  owner : Address
  agents : List Address
  paused : Bool
  totalSupply : Nat
  balances : List (Address × Nat)
deriving DecidableEq, Repr

/-- Modelled from the spec: the whole protocol state: registry admin
(the deployer), Claim Topics registry, Trusted Issuers registry, Identity
store, Identity Registry records (holder to identity address and country),
Identity Registry agents, and the Token Ledger (spec 2, 3). -/
structure SysState where
  admin : Address
  claimTopics : List Topic
  trustedIssuers : List (Address × List Topic)
  identities : List (Address × Identity)
  idRecords : List (Address × Address × Nat)
  irAgents : List Address
  token : Token
deriving DecidableEq, Repr

def getIdentity (s : SysState) (a : Address) : Option Identity :=
  lookupId s.identities a

/-- Lookup in the Identity Registry's records. -/
def lookupRecord : List (Address × Address × Nat) → Address → Option (Address × Nat)
  | [], _ => none
  | p :: rest, a => if p.1 = a then some p.2 else lookupRecord rest a

def getRecord (s : SysState) (holder : Address) : Option (Address × Nat) :=
  lookupRecord s.idRecords holder

/-! ### Claim verification and the eligibility predicate (spec 4.3) -/

/-- Modelled from the spec: signature check of a single claim held at
`identityAddr`, against the identity store `ids`: recompute
`digest = hash(identityAddress, topic, data)`, recover the signer from the
signature over that digest, and confirm the recovered key is an active
claim key of the issuer's Identity (spec 4.3). -/
def checkClaimSignature (ids : List (Address × Identity)) (identityAddr : Address)
    (c : Claim) : Bool :=
  match recoverSigner c.signature (hashClaim identityAddr c.topic c.data) with
  | none => false
  | some k =>
    match lookupId ids c.issuer with
    | none => false
    | some issuerIdn => issuerIdn.hasClaimKey k

/-- Modelled from the spec: a topic is satisfied by an identity when the
identity holds a claim on that topic whose signature checks out and whose
issuer is currently trusted for the topic (spec 4.3; trust is re-verified
live). -/
def verifyTopicClaim (s : SysState) (identityAddr : Address) (idn : Identity)
    (t : Topic) : Bool :=
  match idn.getClaim t with
  | none => false
  | some c =>
    checkClaimSignature s.identities identityAddr c &&
      isTrustedIssuerForTopic s.trustedIssuers c.issuer t

/-- Topic verification for the identity stored at an address. -/
def verifyTopic (s : SysState) (identityAddr : Address) (t : Topic) : Bool :=
  match getIdentity s identityAddr with
  | none => false
  | some idn => verifyTopicClaim s identityAddr idn t

/-- Modelled from the spec: `isVerified(holder)`: true iff the holder has an
IdentityRecord and, for every required topic in the Claim Topics Registry,
the Identity holds a Claim on that topic signed by an issuer currently
trusted for that topic (spec 4.3). -/
def isVerified (s : SysState) (holder : Address) : Bool :=
  match getRecord s holder with
  | none => false
  | some (idAddr, _) =>
    match getIdentity s idAddr with
    | none => false
    | some idn => s.claimTopics.all (fun t => verifyTopicClaim s idAddr idn t)

/-- Modelled from the spec: the DefaultCompliance module bound at deployment
imposes no rule: `canTransfer` is always true (spec 4.4). -/
def canTransfer (_s : SysState) (_sender _receiver : Address) (_amount : Nat) : Bool :=
  true

/-! ### Errors (spec 7) -/

inductive Err where
  | Unauthorized
  | AlreadyRegistered
  | NotRegistered
  | InvalidSignature
  | UntrustedIssuer
  | ComplianceRejected
  | InsufficientBalance
  | Paused
  | NotVerified
deriving DecidableEq, Repr

/-! ### Operations (spec 4.1, 4.2, 4.3, 4.5, 4.6, 6)

Every public operation performs its checks eagerly and either returns the
fully updated state or an error with no state change (spec 7: all-or-nothing
transitions; an `Except.error` result carries no successor state). -/

/-- Modelled from the spec: grant the Agent role on the token; only the
token's owner may grant it (spec 4.5). -/
def addAgent (caller addr : Address) (s : SysState) : Except Err SysState :=
  if caller != s.token.owner then .error .Unauthorized
  else .ok { s with token := { s.token with
    agents := if s.token.agents.contains addr then s.token.agents
              else s.token.agents ++ [addr] } }

/-- Modelled from the spec: grant the Agent role on the Identity Registry
(spec 4.5). -/
def addIrAgent (caller addr : Address) (s : SysState) : Except Err SysState :=
  if caller != s.admin then .error .Unauthorized
  else .ok { s with
    irAgents := if s.irAgents.contains addr then s.irAgents
                else s.irAgents ++ [addr] }

/-- Modelled from the spec: `addClaimTopic(topic)`: admin-only, idempotent
add (spec 4.2). -/
def addClaimTopic (caller : Address) (t : Topic) (s : SysState) : Except Err SysState :=
  if caller != s.admin then .error .Unauthorized
  else .ok { s with claimTopics := addTopicSet s.claimTopics t }

/-- Modelled from the spec: `removeClaimTopic(topic)`: admin-only, no-op
when absent (spec 4.2). -/
def removeClaimTopic (caller : Address) (t : Topic) (s : SysState) : Except Err SysState :=
  if caller != s.admin then .error .Unauthorized
  else .ok { s with claimTopics := removeTopicSet s.claimTopics t }

/-- Modelled from the spec: `addTrustedIssuer(issuer, topics)`: admin-only,
fails if the issuer is already trusted (spec 4.2). -/
def addTrustedIssuer (caller issuer : Address) (topics : List Topic)
    (s : SysState) : Except Err SysState :=
  if caller != s.admin then .error .Unauthorized
  else if s.trustedIssuers.any (fun p => p.1 == issuer) then .error .AlreadyRegistered
  else .ok { s with trustedIssuers := s.trustedIssuers ++ [(issuer, topics)] }

/-- Modelled from the spec: revoking an issuer's trust removes its registry
entry; admin-only, atomic (spec 3, Scenario D). -/
def removeTrustedIssuer (caller issuer : Address) (s : SysState) : Except Err SysState :=
  if caller != s.admin then .error .Unauthorized
  else .ok { s with
    trustedIssuers := s.trustedIssuers.filter (fun p => p.1 != issuer) }

/-- Modelled from the spec: deploying an Identity with an initial management
key (the script's `deployIdentityProxy` and the ClaimIssuer deployment,
src/demo/deployVilla.ts lines 7-15 and 189). -/
def deployIdentity (addr : Address) (mgmtKey : Key) (s : SysState) : Except Err SysState :=
  if (lookupId s.identities addr).isSome then .error .AlreadyRegistered
  else .ok { s with identities := s.identities ++ [(addr, ⟨[mgmtKey], [], []⟩)] }

/-- Modelled from the spec: `addKey(identity, keyHash, purpose, type)`: only
a current management key of the identity may add a key; purpose 3 adds a
claim key, purpose 1 a management key (spec 4.1;
src/demo/deployVilla.ts lines 194-198). -/
def addKey (callerKey : Key) (idAddr : Address) (k : Key) (purpose : Nat)
    (s : SysState) : Except Err SysState :=
  match getIdentity s idAddr with
  | none => .error .NotRegistered
  | some idn =>
    if !(idn.managementKeys.contains callerKey) then .error .Unauthorized
    else
      let idn' := if purpose = 3 then { idn with claimKeys := idn.claimKeys ++ [k] }
                  else { idn with managementKeys := idn.managementKeys ++ [k] }
      .ok { s with identities := setId s.identities idAddr idn' }

/-- Modelled from the spec: `addClaim` records the claim on the identity
without requiring a local management key: trust is established by the
verification step, not by write access control (spec 4.1). -/
def addClaim (idAddr : Address) (c : Claim) (s : SysState) : Except Err SysState :=
  match getIdentity s idAddr with
  | none => .error .NotRegistered
  | some idn => .ok { s with identities := setId s.identities idAddr (idn.putClaim c) }

/-- Modelled from the spec: `registerIdentity(holder, identity, country)`:
restricted to an Agent of the registry; fails if the holder is already
registered (spec 4.3). -/
def registerIdentity (caller holder idAddr : Address) (country : Nat)
    (s : SysState) : Except Err SysState :=
  if !(s.irAgents.contains caller) then .error .Unauthorized
  else if (lookupRecord s.idRecords holder).isSome then .error .AlreadyRegistered
  else .ok { s with idRecords := s.idRecords ++ [(holder, idAddr, country)] }

/-- Modelled from the spec: `mint(to, amount)`: Agent-only; fails if `to` is
not `isVerified`; fails if the Compliance Engine vetoes; on success
increases `balances[to]` and `totalSupply` (spec 4.6).  Mint carries no
pause check: the spec notes the pause check "is not required" for mint, and
the deployment script in the repository mints (src/demo/deployVilla.ts line
236) before unpausing (line 239) with the tests asserting the minted
balance, so a paused token accepts an agent's mint. -/
def mint (caller toAddr : Address) (amount : Nat) (s : SysState) : Except Err SysState :=
  if !(s.token.agents.contains caller) then .error .Unauthorized
  else if !(isVerified s toAddr) then .error .NotVerified
  else if !(canTransfer s toAddr toAddr amount) then .error .ComplianceRejected
  else .ok { s with token := { s.token with
    totalSupply := s.token.totalSupply + amount,
    balances := addBal s.token.balances toAddr amount } }

/-- Modelled from the spec: `transfer(from, to, amount)`: requires unpaused
(failing with `Paused`, Scenario C), both parties verified, sufficient
balance, and compliance approval; updates both balances (spec 4.6). -/
def transfer (sender receiver : Address) (amount : Nat) (s : SysState) : Except Err SysState :=
  if s.token.paused then .error .Paused
  else if !(isVerified s sender && isVerified s receiver) then .error .NotVerified
  else if getBal s.token.balances sender < amount then .error .InsufficientBalance
  else if !(canTransfer s sender receiver amount) then .error .ComplianceRejected
  else .ok { s with token := { s.token with
    balances := addBal (subBal s.token.balances sender amount) receiver amount } }

/-- Modelled from the spec: `burn(from, amount)`: Agent-only; requires
sufficient balance; decreases the balance and the total supply (spec 4.6). -/
def burn (caller fromAddr : Address) (amount : Nat) (s : SysState) : Except Err SysState :=
  if !(s.token.agents.contains caller) then .error .Unauthorized
  else if getBal s.token.balances fromAddr < amount then .error .InsufficientBalance
  else .ok { s with token := { s.token with
    totalSupply := s.token.totalSupply - amount,
    balances := subBal s.token.balances fromAddr amount } }

/-- Modelled from the spec: `pause()`: Agent-gated (spec 4.6). -/
def pause (caller : Address) (s : SysState) : Except Err SysState :=
  if !(s.token.agents.contains caller) then .error .Unauthorized
  else .ok { s with token := { s.token with paused := true } }

/-- Modelled from the spec: `unpause()`: Agent-gated (spec 4.6). -/
def unpause (caller : Address) (s : SysState) : Except Err SysState :=
  if !(s.token.agents.contains caller) then .error .Unauthorized
  else .ok { s with token := { s.token with paused := false } }

/-! ### The step relation and reachability -/

/-- One public operation of the core, with its caller (spec 6). -/
inductive Op where
  | opAddAgent (caller addr : Address)
  | opAddIrAgent (caller addr : Address)
  | opAddClaimTopic (caller : Address) (t : Topic)
  | opRemoveClaimTopic (caller : Address) (t : Topic)
  | opAddTrustedIssuer (caller issuer : Address) (topics : List Topic)
  | opRemoveTrustedIssuer (caller issuer : Address)
  | opDeployIdentity (addr : Address) (mgmtKey : Key)
  | opAddKey (callerKey : Key) (idAddr : Address) (k : Key) (purpose : Nat)
  | opAddClaim (idAddr : Address) (c : Claim)
  | opRegisterIdentity (caller holder idAddr : Address) (country : Nat)
  | opMint (caller toAddr : Address) (amount : Nat)
  | opTransfer (sender receiver : Address) (amount : Nat)
  | opBurn (caller fromAddr : Address) (amount : Nat)
  | opPause (caller : Address)
  | opUnpause (caller : Address)
deriving DecidableEq, Repr

def applyOp : Op → SysState → Except Err SysState
  | .opAddAgent caller addr, s => addAgent caller addr s
  | .opAddIrAgent caller addr, s => addIrAgent caller addr s
  | .opAddClaimTopic caller t, s => addClaimTopic caller t s
  | .opRemoveClaimTopic caller t, s => removeClaimTopic caller t s
  | .opAddTrustedIssuer caller issuer topics, s => addTrustedIssuer caller issuer topics s
  | .opRemoveTrustedIssuer caller issuer, s => removeTrustedIssuer caller issuer s
  | .opDeployIdentity addr mgmtKey, s => deployIdentity addr mgmtKey s
  | .opAddKey callerKey idAddr k purpose, s => addKey callerKey idAddr k purpose s
  | .opAddClaim idAddr c, s => addClaim idAddr c s
  | .opRegisterIdentity caller holder idAddr country, s =>
      registerIdentity caller holder idAddr country s
  | .opMint caller toAddr amount, s => mint caller toAddr amount s
  | .opTransfer sender receiver amount, s => transfer sender receiver amount s
  | .opBurn caller fromAddr amount, s => burn caller fromAddr amount s
  | .opPause caller, s => pause caller s
  | .opUnpause caller, s => unpause caller s

/-- Run a list of operations, stopping at the first error (spec 5: each
operation fully commits or fully reverts). -/
def runOps : List Op → SysState → Except Err SysState
  | [], s => .ok s
  | op :: rest, s => (applyOp op s).bind (runOps rest)

/-- One committed state transition of the core. -/
def Step (s s' : SysState) : Prop := ∃ op : Op, applyOp op s = .ok s'

/-- Modelled from the spec: the freshly deployed token: owned by its
deployer, no agents, zero supply, and paused until the deployment run
unpauses it (spec 4.6; the tests show the token needs an explicit unpause
after creation). -/
def initToken (owner : Address) : Token :=
  { owner := owner, agents := [], paused := true, totalSupply := 0, balances := [] }

/-- The deployment-time initial state: empty registries and a fresh token. -/
def initState (admin tokenOwner : Address) : SysState :=
  { admin := admin, claimTopics := [], trustedIssuers := [], identities := [],
    idRecords := [], irAgents := [], token := initToken tokenOwner }

/-- A state the core can reach from deployment by committed operations. -/
def Reachable (admin tokenOwner : Address) (s : SysState) : Prop :=
  Relation.ReflTransGen Step (initState admin tokenOwner) s

/-- The Token Ledger invariant: the total supply equals the sum of all
balances (spec 3, 8). -/
def tokenInv (s : SysState) : Prop :=
  s.token.totalSupply = sumBal s.token.balances

/-! ### The deployment run (src/demo/deployVilla.ts) -/

def deployerAddr : Address := 0
def tokenIssuerAddr : Address := 1
def tokenAgentAddr : Address := 2
def tokenAdminAddr : Address := 3
def tokenOIDAddr : Address := 10
def claimIssuerAddr : Address := 11
def agentManagerAddr : Address := 12
def tokenContractAddr : Address := 20
def deployerKey : Key := 0
def tokenIssuerKey : Key := 1
def claimSigningKey : Key := 100
def claimTopicVilla : Topic := 42
def claimDataVerified : Bytes := 7

/-- A claim assembled exactly as the deployment script does: its signature
is produced over the digest `hashClaim identityAddr t d`
(src/demo/deployVilla.ts lines 204-223). -/
def mkSignedClaim (k : Key) (issuer identityAddr : Address) (t : Topic) (d : Bytes) : Claim :=
  { topic := t, scheme := 1, issuer := issuer,
    signature := signMessage k (hashClaim identityAddr t d), data := d }

/-- The claim the deployment run adds to the token issuer's identity. -/
def villaClaim : Claim :=
  mkSignedClaim claimSigningKey claimIssuerAddr tokenOIDAddr claimTopicVilla claimDataVerified

/-- The deployment run up to, but not including, the claim addition:
identity deployment for the token issuer (line 100), agent configuration
(lines 163-165, 176-177), claim topic registration (line 169), identity
registration (line 181), claim issuer setup (lines 188-198) and trusting the
claim issuer (line 202). -/
def preClaimOps : List Op :=
  [ .opDeployIdentity tokenOIDAddr tokenIssuerKey,
    .opAddAgent deployerAddr tokenAgentAddr,
    .opAddIrAgent deployerAddr tokenAgentAddr,
    .opAddIrAgent deployerAddr tokenContractAddr,
    .opAddClaimTopic deployerAddr claimTopicVilla,
    .opAddAgent deployerAddr agentManagerAddr,
    .opAddIrAgent deployerAddr agentManagerAddr,
    .opRegisterIdentity tokenAgentAddr tokenIssuerAddr tokenOIDAddr 0,
    .opDeployIdentity claimIssuerAddr deployerKey,
    .opAddKey deployerKey claimIssuerAddr claimSigningKey 3,
    .opAddTrustedIssuer deployerAddr claimIssuerAddr [claimTopicVilla] ]

/-- The deployment run up to, but not including, the mint: `preClaimOps`
followed by adding the signed claim (lines 226-233). -/
def preMintOps : List Op :=
  preClaimOps ++ [.opAddClaim tokenOIDAddr villaClaim]

/-- The full deployment run: everything above, then the single mint of
1,000,000 tokens to the token issuer (line 236) and the unpause (line 239). -/
def deployOps : List Op :=
  preMintOps ++ [.opMint tokenAgentAddr tokenIssuerAddr 1000000,
                 .opUnpause tokenAgentAddr]

def deployInit : SysState := initState deployerAddr deployerAddr

/-- The state just before the claim is added (Scenario A's setting). -/
def preClaimResult : Except Err SysState := runOps preClaimOps deployInit

/-- The state just before the mint (Scenario B's and E's setting). -/
def preMintResult : Except Err SysState := runOps preMintOps deployInit

/-- The final state of the deployment run. -/
def deployResult : Except Err SysState := runOps deployOps deployInit

/-! ### The explorer's transaction sort (src/unnamed/part_001) -/

/-- A transaction row as the explorer sorts it: only the block number is
consulted by the comparator; the payload stands for the remaining fields
(hash, from, to, value, gas, nonce). -/
structure Tx where
  blockNumber : Nat
  payload : Nat
deriving DecidableEq, Repr

inductive SortDirection where
  | asc
  | desc
deriving DecidableEq, Repr

/-- The comparator of src/unnamed/part_001 lines 168-172: ascending compares
`blockA - blockB`, descending `blockB - blockA` (JavaScript number
subtraction, modelled on integers). -/
def txComparator (dir : SortDirection) (a b : Tx) : Int :=
  match dir with
  | .asc => (a.blockNumber : Int) - (b.blockNumber : Int)
  | .desc => (b.blockNumber : Int) - (a.blockNumber : Int)

/-- `sortTransactions` of src/unnamed/part_001 lines 167-173: sort the
transaction list with the block-number comparator; `Array.prototype.sort`
is a stable sort placing `a` before `b` when the comparator is negative and
keeping the original order on ties, modelled by a stable merge sort on the
comparator's non-positivity. -/
def sortTransactions (dir : SortDirection) (txs : List Tx) : List Tx :=
  txs.mergeSort (fun a b => txComparator dir a b ≤ 0)

/-! ### Concrete instance for the claim-trust round trip -/

/-- A small concrete state: identity 10 (management key 1) for holder 1,
claim issuer identity 11 holding claim key 100, trusted for topic 42. -/
def rtState : SysState :=
  { admin := 0, claimTopics := [42], trustedIssuers := [(11, [42])],
    identities := [(10, ⟨[1], [], []⟩), (11, ⟨[0], [100], []⟩)],
    idRecords := [(1, 10, 0)], irAgents := [], token := initToken 0 }

def rtClaim : Claim := mkSignedClaim 100 11 10 42 7

/-- `rtState` after the claim is added to identity 10. -/
def rtStateWithClaim : SysState :=
  match addClaim 10 rtClaim rtState with
  | .ok s => s
  | .error _ => rtState

/-- `rtStateWithClaim` after issuer 11's trust is revoked. -/
def rtStateRevoked : SysState :=
  match removeTrustedIssuer 0 11 rtStateWithClaim with
  | .ok s => s
  | .error _ => rtStateWithClaim

/-! ## Helper lemmas -/

theorem sumBal_addBal (bals : List (Address × Nat)) (a : Address) (v : Nat) :
    sumBal (addBal bals a v) = sumBal bals + v := by
  induction bals with
  | nil => simp [addBal, sumBal]
  | cons p rest ih =>
    by_cases h : p.1 = a
    · simp [addBal, h, sumBal]; omega
    · simp [addBal, h, sumBal, ih]; omega

theorem getBal_le_sumBal (bals : List (Address × Nat)) (a : Address) :
    getBal bals a ≤ sumBal bals := by
  induction bals with
  | nil => simp [getBal, sumBal]
  | cons p rest ih =>
    by_cases h : p.1 = a
    · simp [getBal, h, sumBal]
    · simp [getBal, h, sumBal]; omega

theorem sumBal_subBal (bals : List (Address × Nat)) (a : Address) (v : Nat)
    (h : v ≤ getBal bals a) :
    sumBal (subBal bals a v) = sumBal bals - v := by
  induction bals with
  | nil => simp [subBal, sumBal]
  | cons p rest ih =>
    by_cases hp : p.1 = a
    · simp [subBal, hp, sumBal, getBal] at *
      omega
    · simp [subBal, hp, sumBal, getBal] at *
      have := getBal_le_sumBal rest a
      omega

/-- Every committed operation keeps the supply equal to the balance sum. -/
theorem applyOp_tokenInv (op : Op) (s s' : SysState)
    (hinv : tokenInv s) (h : applyOp op s = Except.ok s') : tokenInv s' := by
  cases op with
  | opMint caller toAddr amount =>
    simp only [applyOp, mint] at h
    split at h
    · exact Except.noConfusion h
    split at h
    · exact Except.noConfusion h
    split at h
    · exact Except.noConfusion h
    cases Except.ok.inj h
    simp only [tokenInv] at *
    simp [sumBal_addBal, hinv]
  | opTransfer sender receiver amount =>
    simp only [applyOp, transfer] at h
    split at h
    · exact Except.noConfusion h
    split at h
    · exact Except.noConfusion h
    split at h
    · exact Except.noConfusion h
    split at h
    · exact Except.noConfusion h
    next hbal _ =>
    cases Except.ok.inj h
    simp only [tokenInv] at *
    have hle : amount ≤ getBal s.token.balances sender := by omega
    have h1 := sumBal_subBal s.token.balances sender amount hle
    have h2 := getBal_le_sumBal s.token.balances sender
    simp [sumBal_addBal, h1, hinv]
    omega
  | opBurn caller fromAddr amount =>
    simp only [applyOp, burn] at h
    split at h
    · exact Except.noConfusion h
    split at h
    · exact Except.noConfusion h
    next hbal =>
    cases Except.ok.inj h
    simp only [tokenInv] at *
    have hle : amount ≤ getBal s.token.balances fromAddr := by omega
    simp [sumBal_subBal s.token.balances fromAddr amount hle, hinv]
  | opAddAgent caller addr =>
    simp only [applyOp, addAgent] at h
    split at h
    · exact Except.noConfusion h
    cases Except.ok.inj h
    simpa [tokenInv] using hinv
  | opAddIrAgent caller addr =>
    simp only [applyOp, addIrAgent] at h
    split at h
    · exact Except.noConfusion h
    cases Except.ok.inj h
    simpa [tokenInv] using hinv
  | opAddClaimTopic caller t =>
    simp only [applyOp, addClaimTopic] at h
    split at h
    · exact Except.noConfusion h
    cases Except.ok.inj h
    simpa [tokenInv] using hinv
  | opRemoveClaimTopic caller t =>
    simp only [applyOp, removeClaimTopic] at h
    split at h
    · exact Except.noConfusion h
    cases Except.ok.inj h
    simpa [tokenInv] using hinv
  | opAddTrustedIssuer caller issuer topics =>
    simp only [applyOp, addTrustedIssuer] at h
    split at h
    · exact Except.noConfusion h
    split at h
    · exact Except.noConfusion h
    cases Except.ok.inj h
    simpa [tokenInv] using hinv
  | opRemoveTrustedIssuer caller issuer =>
    simp only [applyOp, removeTrustedIssuer] at h
    split at h
    · exact Except.noConfusion h
    cases Except.ok.inj h
    simpa [tokenInv] using hinv
  | opDeployIdentity addr mgmtKey =>
    simp only [applyOp, deployIdentity] at h
    split at h
    · exact Except.noConfusion h
    cases Except.ok.inj h
    simpa [tokenInv] using hinv
  | opAddKey callerKey idAddr k purpose =>
    simp only [applyOp, addKey] at h
    split at h
    · exact Except.noConfusion h
    split at h
    · exact Except.noConfusion h
    cases Except.ok.inj h
    simpa [tokenInv] using hinv
  | opAddClaim idAddr c =>
    simp only [applyOp, addClaim] at h
    split at h
    · exact Except.noConfusion h
    cases Except.ok.inj h
    simpa [tokenInv] using hinv
  | opRegisterIdentity caller holder idAddr country =>
    simp only [applyOp, registerIdentity] at h
    split at h
    · exact Except.noConfusion h
    split at h
    · exact Except.noConfusion h
    cases Except.ok.inj h
    simpa [tokenInv] using hinv
  | opPause caller =>
    simp only [applyOp, pause] at h
    split at h
    · exact Except.noConfusion h
    cases Except.ok.inj h
    simpa [tokenInv] using hinv
  | opUnpause caller =>
    simp only [applyOp, unpause] at h
    split at h
    · exact Except.noConfusion h
    cases Except.ok.inj h
    simpa [tokenInv] using hinv

theorem lookupId_setId_self (l : List (Address × Identity)) (a : Address) (idn : Identity) :
    lookupId (setId l a idn) a = some idn := by
  induction l with
  | nil => simp [setId, lookupId]
  | cons p rest ih =>
    by_cases h : p.1 = a
    · simp [setId, h, lookupId]
    · simp [setId, h, lookupId, ih]

theorem lookupId_setId_ne (l : List (Address × Identity)) (a b : Address) (idn : Identity)
    (h : b ≠ a) : lookupId (setId l a idn) b = lookupId l b := by
  induction l with
  | nil => simp [setId, lookupId, Ne.symm h]
  | cons p rest ih =>
    by_cases hp : p.1 = a
    · simp [setId, hp, lookupId, Ne.symm h]
    · simp [setId, hp, lookupId, ih]

theorem findClaim_filter_append (l : List Claim) (c : Claim) :
    findClaim (l.filter (fun c0 => c0.topic != c.topic) ++ [c]) c.topic = some c := by
  induction l with
  | nil => simp [findClaim]
  | cons c0 rest ih =>
    by_cases h : c0.topic = c.topic
    · simpa [h] using ih
    · simpa [h, findClaim] using ih

/-- Recording a claim makes it the claim retrieved for its topic. -/
theorem getClaim_putClaim (idn : Identity) (c : Claim) :
    (idn.putClaim c).getClaim c.topic = some c := by
  simpa [Identity.putClaim, Identity.getClaim] using findClaim_filter_append idn.claims c

theorem isTrusted_filter_self (l : List (Address × List Topic)) (issuer : Address) (t : Topic) :
    isTrustedIssuerForTopic (l.filter (fun p => p.1 != issuer)) issuer t = false := by
  induction l with
  | nil => simp [isTrustedIssuerForTopic]
  | cons p rest ih =>
    by_cases h : p.1 = issuer
    · simpa [h] using ih
    · simpa [h, isTrustedIssuerForTopic] using ih

theorem mem_addTopicSet (topics : List Topic) (t : Topic) : t ∈ addTopicSet topics t := by
  by_cases h : t ∈ topics
  · simp [addTopicSet, h]
  · simp [addTopicSet, h]

theorem addTopicSet_idem (topics : List Topic) (t : Topic) :
    addTopicSet (addTopicSet topics t) t = addTopicSet topics t := by
  by_cases h : t ∈ topics
  · simp [addTopicSet, h]
  · simp [addTopicSet, h]

/-- The supply invariant holds in every reachable state. -/
theorem reachable_tokenInv (admin tokenOwner : Address) (s : SysState)
    (h : Reachable admin tokenOwner s) : tokenInv s := by
  induction h with
  | refl => simp [tokenInv, initState, initToken, sumBal]
  | tail _ hstep ih =>
    obtain ⟨op, hop⟩ := hstep
    exact applyOp_tokenInv op _ _ ih hop

/-- A claim signed for its recorded identity and topic checks out whenever
the recovered key is an active claim key of the issuer's identity. -/
theorem checkSig_lookup (ids : List (Address × Identity)) (idAddr issuer : Address)
    (k : Key) (t : Topic) (d : Bytes) (ii : Identity)
    (hgi : lookupId ids issuer = some ii)
    (hk : ii.hasClaimKey k = true) :
    checkClaimSignature ids idAddr (mkSignedClaim k issuer idAddr t d) = true := by
  simp only [checkClaimSignature, mkSignedClaim, signMessage, recoverSigner, hashClaim]
  simp [hgi, hk]

/-- The signature of a well-signed claim still checks after the claim is
recorded on the target identity: recording changes no claim keys. -/
theorem checkSig_putClaim (ids : List (Address × Identity)) (idAddr issuer : Address)
    (idn : Identity) (k : Key) (t : Topic) (d : Bytes)
    (hidn : lookupId ids idAddr = some idn)
    (hkey : (lookupId ids issuer).map (fun i => i.hasClaimKey k) = some true) :
    checkClaimSignature (setId ids idAddr (idn.putClaim (mkSignedClaim k issuer idAddr t d)))
      idAddr (mkSignedClaim k issuer idAddr t d) = true := by
  by_cases hI : issuer = idAddr
  · subst hI
    rw [hidn] at hkey
    have hk : idn.hasClaimKey k = true := by simpa using hkey
    refine checkSig_lookup _ issuer issuer k t d
      (idn.putClaim (mkSignedClaim k issuer issuer t d)) ?_ ?_
    · exact lookupId_setId_self ids issuer _
    · exact hk
  · have hlook := lookupId_setId_ne ids idAddr issuer
      (idn.putClaim (mkSignedClaim k issuer idAddr t d)) hI
    cases hgi : lookupId ids issuer with
    | none => rw [hgi] at hkey; exact absurd hkey (by simp)
    | some ii =>
      rw [hgi] at hkey
      have hk : ii.hasClaimKey k = true := by simpa using hkey
      exact checkSig_lookup _ idAddr issuer k t d ii (hlook.trans hgi) hk

/-- In a pairwise-ordered list, an element strictly above another (the order
holds one way and fails the other) appears earlier. -/
theorem pair_sublist_of_pairwise {α : Type} {R : α → α → Prop} {x y : α} :
    ∀ l : List α, l.Pairwise R → x ∈ l → y ∈ l → R y x → ¬ R x y → ([y, x]).Sublist l := by
  intro l
  induction l with
  | nil => intro _ hx _ _ _; simp at hx
  | cons z rest ih =>
    intro hp hx hy hyx hxy
    rw [List.pairwise_cons] at hp
    rcases List.mem_cons.mp hy with rfl | hy'
    · rcases List.mem_cons.mp hx with rfl | hx'
      · exact absurd hyx hxy
      · exact List.Sublist.cons₂ y (List.singleton_sublist.mpr hx')
    · rcases List.mem_cons.mp hx with rfl | hx'
      · exact absurd (hp.1 y hy') hxy
      · exact List.Sublist.cons z (ih hp.2 hx' hy' hyx hxy)

/-! ## The claims -/

/-- C1: in every reachable state of the Token Ledger, `totalSupply` equals
the sum of balances over all holders; every mutating operation (mint, burn,
transfer — here every operation of the core) preserves the equality; and
after the deployment run's single mint of 1,000,000 tokens to the token
issuer, `balanceOf(tokenIssuer) = totalSupply = 1,000,000`. -/
theorem totalSupply_eq_sum_balances :
    (∀ (admin tokenOwner : Address) (s : SysState),
        Reachable admin tokenOwner s → tokenInv s) ∧
    (∀ (op : Op) (s s' : SysState),
        tokenInv s → applyOp op s = Except.ok s' → tokenInv s') ∧
    deployResult.map
        (fun s => (getBal s.token.balances tokenIssuerAddr, s.token.totalSupply)) =
      Except.ok (1000000, 1000000) :=
  ⟨fun admin tokenOwner s h => reachable_tokenInv admin tokenOwner s h,
   fun op s s' hinv h => applyOp_tokenInv op s s' hinv h,
   rfl⟩

/-- C2: `mint(to, amount)` succeeds only if `isVerified(to)` holds (the
eligibility predicate over the IdentityRecord, the Claim Topics Registry and
the Trusted Issuers registry); in Scenario A's state — holder registered,
topic required, no claim added — the mint fails with `NotVerified`. -/
theorem mint_requires_isVerified :
    (∀ (caller toAddr : Address) (amount : Nat) (s s' : SysState),
        mint caller toAddr amount s = Except.ok s' → isVerified s toAddr = true) ∧
    preClaimResult.bind (mint tokenAgentAddr tokenIssuerAddr 1) =
      Except.error Err.NotVerified := by
  constructor
  · intro caller toAddr amount s s' h
    simp only [mint] at h
    split at h
    · exact Except.noConfusion h
    split at h
    · exact Except.noConfusion h
    next _ hver => simpa using hver
  · rfl

/-- C3 (Scenario B): with the valid signed claim for the required topic on
the token issuer's identity (issued by the trusted claim issuer), the
agent's mint of 1,000,000 succeeds, and afterwards
`balanceOf(tokenIssuer) = 1,000,000` and `totalSupply = 1,000,000`. -/
theorem scenarioB_mint_succeeds :
    preMintResult.map (fun s => isVerified s tokenIssuerAddr) = Except.ok true ∧
    (preMintResult.bind (mint tokenAgentAddr tokenIssuerAddr 1000000)).map
        (fun s => (getBal s.token.balances tokenIssuerAddr, s.token.totalSupply)) =
      Except.ok (1000000, 1000000) :=
  ⟨rfl, rfl⟩

/-- C4 counterexample: at the deployment run's mint step the token is still
paused (the unpause only comes afterwards), yet the agent's mint of
1,000,000 succeeds — so it is not true that no mint succeeds while
`paused = true`. -/
theorem mint_succeeds_while_paused :
    preMintResult.map (fun s => s.token.paused) = Except.ok true ∧
    (preMintResult.bind (mint tokenAgentAddr tokenIssuerAddr 1000000)).map
        (fun s => (s.token.paused, s.token.totalSupply)) =
      Except.ok (true, 1000000) :=
  ⟨rfl, rfl⟩

/-- C4 as amended: for every state in which `paused = true`, `transfer` does
not succeed — it fails with `Paused` and, failing, leaves the state
unchanged (an operation that returns an error commits nothing) — while
`mint` is not blocked by the pause: the deployment run's agent mint succeeds
on the still-paused token. -/
theorem paused_blocks_transfer :
    (∀ (sender receiver : Address) (amount : Nat) (s : SysState),
        s.token.paused = true →
        transfer sender receiver amount s = Except.error Err.Paused) ∧
    (preMintResult.bind (mint tokenAgentAddr tokenIssuerAddr 1000000)).map
        (fun s => s.token.totalSupply) = Except.ok 1000000 := by
  refine ⟨?_, rfl⟩
  intro sender receiver amount s h
  simp [transfer, h]

/-- C5: a claim's signature is produced over exactly the digest
`hashClaim identityAddress topic data`; verification recomputes that digest,
recovers the signer from the signature over it, and accepts iff the
recovered key is an active claim key of the issuer's Identity. -/
theorem claim_signature_over_digest :
    ∀ (ids : List (Address × Identity)) (identityAddr issuer : Address)
      (t : Topic) (d : Bytes) (k : Key),
      (mkSignedClaim k issuer identityAddr t d).signature =
        signMessage k (hashClaim identityAddr t d) ∧
      recoverSigner (mkSignedClaim k issuer identityAddr t d).signature
          (hashClaim identityAddr t d) = some k ∧
      checkClaimSignature ids identityAddr (mkSignedClaim k issuer identityAddr t d) =
        ((lookupId ids issuer).map (fun idn => idn.hasClaimKey k)).getD false := by
  intro ids identityAddr issuer t d k
  refine ⟨rfl, by simp [mkSignedClaim, signMessage, recoverSigner], ?_⟩
  cases hgi : lookupId ids issuer with
  | none =>
    simp only [checkClaimSignature, mkSignedClaim, signMessage, recoverSigner, hashClaim]
    simp [hgi]
  | some ii =>
    simp only [checkClaimSignature, mkSignedClaim, signMessage, recoverSigner, hashClaim]
    simp [hgi]

/-- C7: `addClaimTopic` is idempotent: on any required-topic set adding a
topic twice yields the same set as adding it once, and at the operation
level a second identical `addClaimTopic` call returns the state it is given. -/
theorem addClaimTopic_idempotent :
    (∀ (topics : List Topic) (t : Topic),
        addTopicSet (addTopicSet topics t) t = addTopicSet topics t) ∧
    (∀ (caller : Address) (t : Topic) (s s' : SysState),
        addClaimTopic caller t s = Except.ok s' →
        addClaimTopic caller t s' = Except.ok s') := by
  constructor
  · exact addTopicSet_idem
  · intro caller t s s' h
    simp only [addClaimTopic] at h ⊢
    split at h
    · exact Except.noConfusion h
    next hc =>
      cases Except.ok.inj h
      rw [if_neg hc]
      simp [addTopicSet_idem]

/-- C8 (Scenario E): a mint from a caller without the Agent role fails with
`Unauthorized` (and, failing, commits no state change); concretely, in the
deployment state the admin's mint fails with `Unauthorized`, and after the
owner grants `addAgent` to that address the same mint call succeeds. -/
theorem mint_is_agent_gated :
    (∀ (caller toAddr : Address) (amount : Nat) (s : SysState),
        s.token.agents.contains caller = false →
        mint caller toAddr amount s = Except.error Err.Unauthorized) ∧
    preMintResult.bind (mint tokenAdminAddr tokenIssuerAddr 1000000) =
      Except.error Err.Unauthorized ∧
    ((preMintResult.bind (addAgent deployerAddr tokenAdminAddr)).bind
        (mint tokenAdminAddr tokenIssuerAddr 1000000)).map
        (fun s => (getBal s.token.balances tokenIssuerAddr, s.token.totalSupply)) =
      Except.ok (1000000, 1000000) := by
  refine ⟨?_, rfl, rfl⟩
  intro caller toAddr amount s h
  simp only [mint, h]
  rfl

/-- C9: the deployment entry point's final token operation is `unpause`, so
a successful run of `main()` returns the token unpaused. -/
theorem deploy_leaves_token_unpaused :
    deployResult.map (fun s => s.token.paused) = Except.ok false :=
  rfl

/-- C6: a claim signed by issuer I for topic T and added to identity X
verifies successfully iff I is trusted for T at the time verification is
performed; revoking I's trust for T makes that same stored claim fail
verification while the claim stays retrievable on X (it is not deleted). -/
theorem claim_verifies_iff_trusted :
    ∀ (s s' s'' : SysState) (idAddr issuer caller : Address) (k : Key) (t : Topic) (d : Bytes),
      (getIdentity s issuer).map (fun i => i.hasClaimKey k) = some true →
      addClaim idAddr (mkSignedClaim k issuer idAddr t d) s = Except.ok s' →
      (verifyTopic s' idAddr t = isTrustedIssuerForTopic s'.trustedIssuers issuer t) ∧
      (removeTrustedIssuer caller issuer s' = Except.ok s'' →
        verifyTopic s'' idAddr t = false ∧
        (getIdentity s'' idAddr).bind (fun i => i.getClaim t) =
          some (mkSignedClaim k issuer idAddr t d)) := by
  intro s s' s'' idAddr issuer caller k t d hkey hadd
  simp only [addClaim] at hadd
  cases hidn : getIdentity s idAddr with
  | none => rw [hidn] at hadd; exact Except.noConfusion hadd
  | some idn =>
    rw [hidn] at hadd
    have hs' := Except.ok.inj hadd
    subst hs'
    have hA := lookupId_setId_self s.identities idAddr
      (idn.putClaim (mkSignedClaim k issuer idAddr t d))
    have hgc : (idn.putClaim (mkSignedClaim k issuer idAddr t d)).getClaim t =
        some (mkSignedClaim k issuer idAddr t d) :=
      getClaim_putClaim idn (mkSignedClaim k issuer idAddr t d)
    have hsig := checkSig_putClaim s.identities idAddr issuer idn k t d hidn hkey
    have hiss : (mkSignedClaim k issuer idAddr t d).issuer = issuer := rfl
    constructor
    · simp [verifyTopic, getIdentity, verifyTopicClaim, hA, hgc, hsig, hiss]
    · intro hrem
      simp only [removeTrustedIssuer] at hrem
      split at hrem
      · exact Except.noConfusion hrem
      next hcaller =>
        have hs'' := Except.ok.inj hrem
        subst hs''
        constructor
        · simp [verifyTopic, getIdentity, verifyTopicClaim, hA, hgc, hsig, hiss,
            isTrusted_filter_self]
        · simp [getIdentity, hA, hgc]

/-- C6 witness: the round trip at a concrete state: identity 10, issuer 11
with claim key 100 trusted for topic 42; after the claim is added it
verifies (the registry lookup is true), and after the trust revocation it
no longer verifies though still stored. -/
theorem claim_verifies_iff_trusted_wit :
    (verifyTopic rtStateWithClaim 10 42 =
      isTrustedIssuerForTopic rtStateWithClaim.trustedIssuers 11 42) ∧
    verifyTopic rtStateRevoked 10 42 = false ∧
    (getIdentity rtStateRevoked 10).bind (fun i => i.getClaim 42) = some rtClaim := by
  have h := claim_verifies_iff_trusted rtState rtStateWithClaim rtStateRevoked
    10 11 0 100 42 7 (by rfl) (by rfl)
  exact ⟨h.1, (h.2 (by rfl)).1, (h.2 (by rfl)).2⟩

/-- C10: `sortTransactions` returns a permutation of its input transaction
list ordered by `blockNumber` — non-decreasing under `asc`, non-increasing
under `desc` — and for any two transactions with distinct block numbers the
`asc` and `desc` outputs place them in opposite relative order. -/
theorem sortTransactions_sorts :
    ∀ (dir : SortDirection) (l : List Tx),
      (sortTransactions dir l).Perm l ∧
      (sortTransactions SortDirection.asc l).Pairwise
        (fun a b => a.blockNumber ≤ b.blockNumber) ∧
      (sortTransactions SortDirection.desc l).Pairwise
        (fun a b => b.blockNumber ≤ a.blockNumber) ∧
      (∀ x y : Tx, ([x, y]).Sublist (sortTransactions SortDirection.asc l) →
        x.blockNumber ≠ y.blockNumber →
        ([y, x]).Sublist (sortTransactions SortDirection.desc l)) := by
  intro dir l
  have hsort : ∀ dir2 : SortDirection,
      (sortTransactions dir2 l).Pairwise
        (fun a b => (decide (txComparator dir2 a b ≤ 0)) = true) := by
    intro dir2
    unfold sortTransactions
    apply List.sorted_mergeSort
    · intro a b c hab hbc
      cases dir2 <;> (simp [txComparator] at *; omega)
    · intro a b
      cases dir2 <;> (simp [txComparator]; omega)
  have hasc : (sortTransactions SortDirection.asc l).Pairwise
      (fun a b => a.blockNumber ≤ b.blockNumber) := by
    refine (hsort SortDirection.asc).imp ?_
    intro a b hab
    simp [txComparator] at hab
    omega
  have hdesc : (sortTransactions SortDirection.desc l).Pairwise
      (fun a b => b.blockNumber ≤ a.blockNumber) := by
    refine (hsort SortDirection.desc).imp ?_
    intro a b hab
    simp [txComparator] at hab
    omega
  refine ⟨List.mergeSort_perm l _, hasc, hdesc, ?_⟩
  intro x y hsub hne
  have hpair : ([x, y]).Pairwise (fun a b => a.blockNumber ≤ b.blockNumber) :=
    List.Pairwise.sublist hsub hasc
  have hxy : x.blockNumber ≤ y.blockNumber :=
    (List.pairwise_cons.mp hpair).1 y (by simp)
  have hlt : x.blockNumber < y.blockNumber := lt_of_le_of_ne hxy hne
  have hxl : x ∈ l := List.mem_mergeSort.mp (hsub.subset (by simp))
  have hyl : y ∈ l := List.mem_mergeSort.mp (hsub.subset (by simp))
  have hxd : x ∈ sortTransactions SortDirection.desc l := List.mem_mergeSort.mpr hxl
  have hyd : y ∈ sortTransactions SortDirection.desc l := List.mem_mergeSort.mpr hyl
  exact pair_sublist_of_pairwise _ hdesc hxd hyd hxy (by omega)

end Villa
